import Mathlib

/-!
Shallow embedding of the NREL_task_2022 wind-resource notebook
(`src/geospatial_task.ipynb`, archived draft `src/archive/tech_task.qmd`).

Numeric values are modelled as exact rationals (the notebook computes with
float64; every claim checked here is about exact arithmetic identities,
grouping structure, error behaviour or mutation, none of which depend on
rounding).  pandas data frames are modelled as Lean lists of structure rows.
-/

attribute [local semireducible] Rat.add Rat.mul Rat.inv Rat.sub Rat.ofScientific

namespace NREL2022

/-- One entry of the notebook's `time_df['date_time']` column, reduced to the
four calendar accessors (`dt.year`, `dt.month`, `dt.day`, `dt.hour`) that
`windspeed_point_df_maker` reads from it. -/
structure Timestamp where
  year : ℤ
  month : ℤ
  day : ℤ
  hour : ℤ
deriving DecidableEq

/-- One row of the decorated data frame built by `windspeed_point_df_maker`:
calendar fields, the site coordinates, the decoded wind speed and the
whole-series average attached to every row. -/
structure DecoratedRow where
  year : ℤ
  month : ℤ
  day : ℤ
  hour : ℤ
  latitude : ℚ
  longitude : ℚ
  windspeed : ℚ
  avg_windspeed : ℚ
deriving DecidableEq

/-- Arithmetic mean as computed by pandas `Series.mean` (sum divided by
count).  The notebook only ever takes means of non-empty columns. -/
def mean (xs : List ℚ) : ℚ := xs.sum / (xs.length : ℚ)

/-- Sample variance with `ddof = 1`, the quantity under the square root of
pandas' `std` aggregation: `none` models the `NaN` that pandas produces for a
group with fewer than two samples (division by `n - 1 = 0`).  The aggregate
rows below carry this variance rather than its square root: the square root
of a rational is irrational in general, and every property checked here
(definedness, being zero, equality across groupings) is invariant under the
strictly monotone square-root map, so nothing is lost by staying one square
root below the source's column. -/
def sampleVariance (xs : List ℚ) : Option ℚ :=
  if xs.length ≤ 1 then none
  else some ((xs.map (fun x => (x - mean xs) ^ 2)).sum / ((xs.length : ℚ) - 1))

/-- Lexicographic comparison on a pair: strictly smaller first component, or
equal first components and related second components.  This models the
ascending sort that pandas `groupby` (with its default `sort = True`) applies
to the tuple of group keys. -/
def lexLe {a b : Type} [LinearOrder a] (rb : b → b → Prop) (x y : a × b) : Prop :=
  x.1 < y.1 ∨ (x.1 = y.1 ∧ rb x.2 y.2)

instance {a b : Type} [inst : LinearOrder a] (rb : b → b → Prop) [DecidableRel rb] :
    DecidableRel (@lexLe a b inst rb) := fun x y =>
  inferInstanceAs (Decidable (x.1 < y.1 ∨ (x.1 = y.1 ∧ rb x.2 y.2)))

instance {a b : Type} [LinearOrder a] (rb : b → b → Prop) [IsTotal b rb] :
    IsTotal (a × b) (lexLe rb) := by
  constructor
  intro x y
  rcases lt_trichotomy x.1 y.1 with h | h | h
  · exact Or.inl (Or.inl h)
  · rcases total_of rb x.2 y.2 with h2 | h2
    · exact Or.inl (Or.inr ⟨h, h2⟩)
    · exact Or.inr (Or.inr ⟨h.symm, h2⟩)
  · exact Or.inr (Or.inl h)

instance {a b : Type} [LinearOrder a] (rb : b → b → Prop) [IsTrans b rb] :
    IsTrans (a × b) (lexLe rb) := by
  constructor
  intro x y z hxy hyz
  rcases hxy with h1 | ⟨h1, h1b⟩
  · rcases hyz with h2 | ⟨h2, _⟩
    · exact Or.inl (h1.trans h2)
    · exact Or.inl (h2 ▸ h1)
  · rcases hyz with h2 | ⟨h2, h2b⟩
    · exact Or.inl (h1 ▸ h2)
    · exact Or.inr ⟨h1.trans h2, Trans.trans h1b h2b⟩

instance {a b : Type} [LinearOrder a] (rb : b → b → Prop) [IsAntisymm b rb] :
    IsAntisymm (a × b) (lexLe rb) := by
  constructor
  intro x y hxy hyx
  rcases hxy with h1 | ⟨h1, h1b⟩
  · rcases hyx with h2 | ⟨h2, _⟩
    · exact absurd (h1.trans h2) (lt_irrefl _)
    · exact absurd h1 (h2 ▸ lt_irrefl _)
  · rcases hyx with h2 | ⟨h2, h2b⟩
    · exact absurd h2 (h1 ▸ lt_irrefl _)
    · exact Prod.ext h1 (antisymm h1b h2b)

/-- Group key of the `'hour'` branch of `time_subset`:
`['year', 'month', 'hour', 'avg_windspeed']`. -/
def hourKey (r : DecoratedRow) : ℤ × ℤ × ℤ × ℚ := (r.year, r.month, r.hour, r.avg_windspeed)

/-- Group key of the `'day'` branch of `time_subset`:
`['year', 'month', 'day', 'avg_windspeed']`. -/
def dayKey (r : DecoratedRow) : ℤ × ℤ × ℤ × ℚ := (r.year, r.month, r.day, r.avg_windspeed)

/-- Group key of the `'month'` branch of `time_subset`:
`['month', 'avg_windspeed']`. -/
def monthKey (r : DecoratedRow) : ℤ × ℚ := (r.month, r.avg_windspeed)

/-- Ascending order on four-component group keys (year/month/hour-or-day
tuple followed by the `avg_windspeed` value). -/
def key4LE : (ℤ × ℤ × ℤ × ℚ) → (ℤ × ℤ × ℤ × ℚ) → Prop :=
  lexLe (lexLe (lexLe (fun x y : ℚ => x ≤ y)))

/-- Ascending order on two-component group keys (`month`, `avg_windspeed`). -/
def key2LE : (ℤ × ℚ) → (ℤ × ℚ) → Prop :=
  lexLe (fun x y : ℚ => x ≤ y)

instance : DecidableRel key4LE := by unfold key4LE; infer_instance
instance : DecidableRel key2LE := by unfold key2LE; infer_instance

/-- Distinct group keys of a grouped frame, in the ascending order in which
pandas `groupby` emits its groups. -/
def groupKeys {K : Type} [DecidableEq K] (le : K → K → Prop) [DecidableRel le]
    (key : DecoratedRow → K) (df : List DecoratedRow) : List K :=
  ((df.map key).dedup).insertionSort le

/-- Rows of `df` that fall in the group of key `k`; groups keep the original
row order, as pandas groups do. -/
def groupOf {K : Type} [DecidableEq K] (key : DecoratedRow → K)
    (df : List DecoratedRow) (k : K) : List DecoratedRow :=
  df.filter (fun r => decide (key r = k))

/-- Output row of `time_subset(period = 'hour', ...)`: the group-key columns
followed by `hour_avg_windspeed = ('windspeed', 'mean')` and
`standard_dev = ('windspeed', 'std')`. -/
structure HourAggRow where
  year : ℤ
  month : ℤ
  hour : ℤ
  avg_windspeed : ℚ
  hour_avg_windspeed : ℚ
  standard_dev : Option ℚ
deriving DecidableEq

/-- Output row of `time_subset(period = 'day', ...)`; `date` models the
`pd.to_datetime(year + '/' + month + '/' + day)` column as the calendar
triple it is built from. -/
structure DayAggRow where
  year : ℤ
  month : ℤ
  day : ℤ
  avg_windspeed : ℚ
  daily_avg_windspeed : ℚ
  standard_dev : Option ℚ
  date : ℤ × ℤ × ℤ
deriving DecidableEq

/-- Output row of `time_subset(period = 'month', ...)`. -/
structure MonthAggRow where
  month : ℤ
  avg_windspeed : ℚ
  month_avg_windspeed : ℚ
  standard_dev : Option ℚ
deriving DecidableEq

/-- Aggregate row for one hour-branch group key. -/
def mkHourRow (df : List DecoratedRow) (k : ℤ × ℤ × ℤ × ℚ) : HourAggRow :=
  { year := k.1, month := k.2.1, hour := k.2.2.1, avg_windspeed := k.2.2.2,
    hour_avg_windspeed := mean ((groupOf hourKey df k).map DecoratedRow.windspeed),
    standard_dev := sampleVariance ((groupOf hourKey df k).map DecoratedRow.windspeed) }

/-- Aggregate row for one day-branch group key. -/
def mkDayRow (df : List DecoratedRow) (k : ℤ × ℤ × ℤ × ℚ) : DayAggRow :=
  { year := k.1, month := k.2.1, day := k.2.2.1, avg_windspeed := k.2.2.2,
    daily_avg_windspeed := mean ((groupOf dayKey df k).map DecoratedRow.windspeed),
    standard_dev := sampleVariance ((groupOf dayKey df k).map DecoratedRow.windspeed),
    date := (k.1, k.2.1, k.2.2.1) }

/-- Aggregate row for one month-branch group key. -/
def mkMonthRow (df : List DecoratedRow) (k : ℤ × ℚ) : MonthAggRow :=
  { month := k.1, avg_windspeed := k.2,
    month_avg_windspeed := mean ((groupOf monthKey df k).map DecoratedRow.windspeed),
    standard_dev := sampleVariance ((groupOf monthKey df k).map DecoratedRow.windspeed) }

/-- Return value of `time_subset`: the three aggregated shapes, or — on any
other `period` string — the input frame handed back unchanged (the `else`
branch only prints a message and falls through to `return df`). -/
inductive TimeSubsetResult where
  | hourly : List HourAggRow → TimeSubsetResult
  | daily : List DayAggRow → TimeSubsetResult
  | monthly : List MonthAggRow → TimeSubsetResult
  | unchanged : List DecoratedRow → TimeSubsetResult
deriving DecidableEq

/-- Model of the notebook's `time_subset(period, df)`: groups the decorated
frame by the period's key columns (pandas sorts the distinct keys
ascendingly; within a group rows keep their order) and aggregates
`windspeed` with `mean` and `std` (`ddof = 1`; see `sampleVariance` for how
the square root is handled).  The final `else` branch of the source prints
`"Period must be desginated as either hour, day, or month"` and returns the
input frame unchanged — printing is I/O with no effect on the returned
value, so it is not modelled. -/
def time_subset (period : String) (df : List DecoratedRow) : TimeSubsetResult :=
  if period = "hour" then
    .hourly (((groupKeys key4LE hourKey df)).map (fun k => mkHourRow df k))
  else if period = "day" then
    .daily (((groupKeys key4LE dayKey df)).map (fun k => mkDayRow df k))
  else if period = "month" then
    .monthly (((groupKeys key2LE monthKey df)).map (fun k => mkMonthRow df k))
  else
    .unchanged df

/-- Squared Euclidean distance between two (latitude, longitude) pairs in raw
degree space.  `cKDTree.query` compares candidates by Euclidean distance;
minimising the distance and minimising its square are the same, and the
square keeps every quantity rational. -/
def sqDist (p q : ℚ × ℚ) : ℚ := (p.1 - q.1) ^ 2 + (p.2 - q.2) ^ 2

/-- Incumbent-driven scan behind `nearest_site`: walk the remaining
coordinates `cs` (the coordinate at the head of `cs` has position `k` in the
full array) and replace the incumbent `(bi, bd)` — best position and its
squared distance — only when a candidate is strictly closer.  An executable
model must fix some resolution of ties between equidistant nearest sites;
this scan fixes the earliest position.  scipy documents no tie rule for
`cKDTree.query` — its build reorders indices with an unstable partition and
its traversal across leaves is geometric, so the tie order is
implementation-dependent — hence this choice is a modelling artifact only:
no theorem in this file draws a tie-breaking conclusion from it. -/
def nearestAux (q : ℚ × ℚ) : List (ℚ × ℚ) → ℕ → ℕ → ℚ → ℕ × ℚ
  | [], _, bi, bd => (bi, bd)
  | c :: cs, k, bi, bd =>
      if sqDist c q < bd then nearestAux q cs (k + 1) k (sqDist c q)
      else nearestAux q cs (k + 1) bi bd

/-- Model of the notebook's `nearest_site(coord_array, lat_coord, lon_coord)`:
build a `cKDTree` on the coordinate array and query it with the point
`[lat_coord, lon_coord]`, returning the position `pos` of the nearest site
(the distance `dist` is discarded by the source).  scipy documents that the
query returns the exact Euclidean-nearest point; which of several
equidistant nearest points it returns is implementation-dependent and
undocumented, so only the distance-minimisation contract of this function
reflects the program (see `nearestAux` on the tie resolution an executable
model has to pick).  On an empty array scipy returns the missing-neighbour
sentinel `pos = n = 0`. -/
def nearest_site (coord_array : List (ℚ × ℚ)) (lat_coord lon_coord : ℚ) : ℕ :=
  match coord_array with
  | [] => 0
  | c :: cs => (nearestAux (lat_coord, lon_coord) cs 1 0 (sqDist c (lat_coord, lon_coord))).1

/-- One dataset of the opened WTK `.h5` file: a rectangular raw-value array
indexed `[time, site]` together with its `scale_factor` attribute. -/
structure H5Dataset where
  data : List (List ℚ)
  scale_factor : ℚ

/-- Model of the opened `h5pyd.File` handle `raw_h5`: `raw_h5[variable]`
yields the named dataset.  The claims only concern names that exist, so the
handle is a total map from names to datasets. -/
structure H5File where
  datasets : String → H5Dataset

/-- Model of the notebook's `h5_extractor(raw_h5, variable, POI_indx)`:
takes the column `variable_raw[:, POI_indx]` (one raw value per time step)
and divides it elementwise by `variable_raw.attrs['scale_factor']`.  The
body performs no validation of the scale factor: numpy elementwise division
is total (a zero divisor produces non-finite values and a runtime warning,
never an exception), and rational division is likewise total, so the model
is a plain function with no error channel.  The source names the second
parameter `variable`, a reserved word in Lean, hence `variable_name`. -/
def h5_extractor (raw_h5 : H5File) (variable_name : String) (POI_indx : ℕ) : List ℚ :=
  let variable_raw := raw_h5.datasets variable_name
  (variable_raw.data.map (fun trow => trow.getD POI_indx 0)).map
    (fun v => v / variable_raw.scale_factor)

/-- Model of the notebook's `windspeed_point_df_maker(time_df, coords_df,
windspeed, POI_indx)`.  The extra argument `windspeed_100` models the
notebook-global variable of that name: the source line
`df['windspeed'] = windspeed_100` reads the global, so the `windspeed`
parameter is never used by the body.  Rows pair the time axis with the
global wind-speed column (the notebook always assigns columns of the frame's
own length, so assignment-by-index-alignment is modelled by zipping);
`avg_windspeed` is the mean of the stored `windspeed` column, attached to
every row. -/
def windspeed_point_df_maker (time_df : List Timestamp) (coords_df : List (ℚ × ℚ))
    (windspeed : List ℚ) (POI_indx : ℕ) (windspeed_100 : List ℚ) : List DecoratedRow :=
  let _ := windspeed
  let lat := (coords_df.getD POI_indx (0, 0)).1
  let lon := (coords_df.getD POI_indx (0, 0)).2
  let pairs := time_df.zip windspeed_100
  let avg := mean (pairs.map Prod.snd)
  pairs.map (fun p =>
    { year := p.1.year, month := p.1.month, day := p.1.day, hour := p.1.hour,
      latitude := lat, longitude := lon, windspeed := p.2, avg_windspeed := avg })

/-- Model of a pandas frame of query points as `multiple_site_index` sees
it: the column labels (mutable state the function overwrites in place) and
the rows of (first-column, second-column) values. -/
structure PointsFrame where
  columns : List String
  rows : List (ℚ × ℚ)
deriving DecidableEq

/-- Model of the empty `results = pd.DataFrame(dtype = float)` frame of the
notebook's `multiple_site_index`: integer-labelled columns of site indices.
It has no columns when created, and the function never adds one. -/
structure ResultsFrame where
  cols : List (ℕ × List ℕ)
deriving DecidableEq

/-- Column lookup `frame[label]` on the results frame: pandas raises
`KeyError` when no column carries the label. -/
def resultsCol (frame : ResultsFrame) (label : ℕ) : Except String (List ℕ) :=
  match frame.cols.find? (fun c => c.1 == label) with
  | some c => Except.ok c.2
  | none => Except.error ("KeyError: " ++ toString label)

/-- Model of `multiple_site_index(POI_df, coord_array)` as it stands in
`src/geospatial_task.ipynb`.  The first statement `POI_df.columns = ['lat',
'lon']` rewrites the column labels of the caller's frame in place, so the
function returns, besides its own outcome, the post-call state of the
argument frame.  The loop body computes the nearest site for row `ind` and
then evaluates `results[ind](POI_indx)`: `results[ind]` is a column lookup
on the empty results frame, which raises `KeyError` (and, were a column ever
present, calling it would raise `TypeError`), so the loop fails on its first
iteration and only an empty `POI_df` reaches the final `return results`. -/
def multiple_site_index (POI_df : PointsFrame) (coord_array : List (ℚ × ℚ)) :
    Except String ResultsFrame × PointsFrame :=
  let POI_df := { POI_df with columns := ["lat", "lon"] }
  let results : ResultsFrame := ⟨[]⟩
  let run : Except String ResultsFrame :=
    (List.range POI_df.rows.length).foldlM
      (fun (res : ResultsFrame) ind => do
        let lat := (POI_df.rows.getD ind (0, 0)).1
        let lon := (POI_df.rows.getD ind (0, 0)).2
        let POI_indx := nearest_site coord_array lat lon
        let col ← resultsCol res ind
        let _ := col
        let _ := POI_indx
        Except.error ("TypeError: column " ++ toString ind ++ " is not callable"))
      results
  (run, POI_df)

/-- Model of the `multiple_site_index` of the archived draft
`src/archive/tech_task.qmd`, which accumulates `results.append(POI_indx)`
into a Python list: it returns the nearest-site index of every query row, in
row order, alongside the post-call state of the argument frame (the draft
also rewrites `POI_df.columns` in place). -/
def multiple_site_index_archive (POI_df : PointsFrame) (coord_array : List (ℚ × ℚ)) :
    List ℕ × PointsFrame :=
  let POI_df := { POI_df with columns := ["lat", "lon"] }
  (POI_df.rows.map (fun p => nearest_site coord_array p.1 p.2), POI_df)

/-- Call-level view of `time_subset` recording the effect of the call on
the caller's frame: the body's statement `df = df.groupby(...)` rebinds
the local name to a freshly built grouped frame and the only in-place write
(`df['date'] = ...` in the `'day'` branch) targets that fresh frame, so the
argument object is returned to the caller unchanged. -/
def time_subset_call (period : String) (df : List DecoratedRow) :
    TimeSubsetResult × List DecoratedRow :=
  (time_subset period df, df)

/-- Temporal part of the hour-branch group key (year, month, hour), without
the `avg_windspeed` column. -/
def hourKeySpec (r : DecoratedRow) : ℤ × ℤ × ℤ := (r.year, r.month, r.hour)

/-- Temporal part of the day-branch group key (year, month, day). -/
def dayKeySpec (r : DecoratedRow) : ℤ × ℤ × ℤ := (r.year, r.month, r.day)

/-- Temporal part of the month-branch group key: the month alone. -/
def monthKeySpec (r : DecoratedRow) : ℤ := r.month

/-- Ascending order on three-component temporal keys. -/
def key3LE : (ℤ × ℤ × ℤ) → (ℤ × ℤ × ℤ) → Prop :=
  lexLe (lexLe (fun x y : ℤ => x ≤ y))

/-- Ascending order on single-component temporal keys. -/
def key1LE : ℤ → ℤ → Prop := fun x y => x ≤ y

instance : DecidableRel key3LE := by unfold key3LE; infer_instance
instance : DecidableRel key1LE := by unfold key1LE; infer_instance

instance : IsTotal (ℤ × ℤ × ℤ × ℚ) key4LE := by unfold key4LE; infer_instance
instance : IsTrans (ℤ × ℤ × ℤ × ℚ) key4LE := by unfold key4LE; infer_instance
instance : IsAntisymm (ℤ × ℤ × ℤ × ℚ) key4LE := by unfold key4LE; infer_instance
instance : IsTotal (ℤ × ℚ) key2LE := by unfold key2LE; infer_instance
instance : IsTrans (ℤ × ℚ) key2LE := by unfold key2LE; infer_instance
instance : IsAntisymm (ℤ × ℚ) key2LE := by unfold key2LE; infer_instance
instance : IsTotal (ℤ × ℤ × ℤ) key3LE := by unfold key3LE; infer_instance
instance : IsTrans (ℤ × ℤ × ℤ) key3LE := by unfold key3LE; infer_instance
instance : IsAntisymm (ℤ × ℤ × ℤ) key3LE := by unfold key3LE; infer_instance
instance : IsTotal ℤ key1LE := by unfold key1LE; infer_instance
instance : IsTrans ℤ key1LE := by unfold key1LE; infer_instance
instance : IsAntisymm ℤ key1LE := by unfold key1LE; infer_instance

/-- Append the constant `avg_windspeed` value to a three-component temporal
key, producing the implementation's four-component group key. -/
def appendAvg (μ : ℚ) (t : ℤ × ℤ × ℤ) : ℤ × ℤ × ℤ × ℚ := (t.1, t.2.1, t.2.2, μ)

/-- Pair a month key with the constant `avg_windspeed` value, producing the
implementation's two-component group key. -/
def appendAvg1 (μ : ℚ) (m : ℤ) : ℤ × ℚ := (m, μ)

/-- Written from the words of the spec (claim C10), for comparison with the
hour branch of `time_subset`: group by the temporal keys (year, month, hour)
ALONE, aggregate `windspeed` with mean and std per group, and carry the
constant whole-series mean `μ` unchanged into every output row. -/
def hour_subset_spec (μ : ℚ) (df : List DecoratedRow) : List HourAggRow :=
  (((df.map hourKeySpec).dedup).insertionSort key3LE).map (fun k =>
    { year := k.1, month := k.2.1, hour := k.2.2, avg_windspeed := μ,
      hour_avg_windspeed :=
        mean ((df.filter (fun r => decide (hourKeySpec r = k))).map DecoratedRow.windspeed),
      standard_dev :=
        sampleVariance ((df.filter (fun r => decide (hourKeySpec r = k))).map
          DecoratedRow.windspeed) })

/-- Written from the words of the spec (claim C10), for comparison with the
day branch of `time_subset`: group by (year, month, day) alone, aggregate,
carry the constant `μ`, and synthesize the calendar date of the group. -/
def day_subset_spec (μ : ℚ) (df : List DecoratedRow) : List DayAggRow :=
  (((df.map dayKeySpec).dedup).insertionSort key3LE).map (fun k =>
    { year := k.1, month := k.2.1, day := k.2.2, avg_windspeed := μ,
      daily_avg_windspeed :=
        mean ((df.filter (fun r => decide (dayKeySpec r = k))).map DecoratedRow.windspeed),
      standard_dev :=
        sampleVariance ((df.filter (fun r => decide (dayKeySpec r = k))).map
          DecoratedRow.windspeed),
      date := (k.1, k.2.1, k.2.2) })

/-- Written from the words of the spec (claim C10), for comparison with the
month branch of `time_subset`: group by the month alone, aggregate, and
carry the constant `μ`. -/
def month_subset_spec (μ : ℚ) (df : List DecoratedRow) : List MonthAggRow :=
  (((df.map monthKeySpec).dedup).insertionSort key1LE).map (fun m =>
    { month := m, avg_windspeed := μ,
      month_avg_windspeed :=
        mean ((df.filter (fun r => decide (r.month = m))).map DecoratedRow.windspeed),
      standard_dev :=
        sampleVariance ((df.filter (fun r => decide (r.month = m))).map
          DecoratedRow.windspeed) })

/-- Calendar months of a year, in ascending order. -/
def monthsList : List ℤ := [1, 2, 3, 4, 5, 6, 7, 8, 9, 10, 11, 12]

/-- Sample decorated row (January) used by the concrete witnesses below. -/
def rowA : DecoratedRow :=
  { year := 2012, month := 1, day := 1, hour := 0,
    latitude := 34, longitude := -119, windspeed := 5, avg_windspeed := 6 }

/-- Sample decorated row (February) used by the concrete witnesses below. -/
def rowB : DecoratedRow :=
  { year := 2012, month := 2, day := 1, hour := 0,
    latitude := 34, longitude := -119, windspeed := 7, avg_windspeed := 6 }

/-- Twelve-row decorated frame with one sample in each calendar month and a
constant `avg_windspeed` column, used by the concrete witnesses below. -/
def fullYearSample : List DecoratedRow :=
  monthsList.map (fun m =>
    { year := 2012, month := m, day := 1, hour := 0,
      latitude := 34, longitude := -119, windspeed := (m : ℚ), avg_windspeed := 1 })

/-- Store fixture whose datasets hold the single raw value 500 under scale
factor 100 (the spec's decoding scenario). -/
def sampleFile : H5File := ⟨fun _ => ⟨[[500]], 100⟩⟩

/-- Store fixture whose datasets carry a zero scale factor. -/
def zeroScaleFile : H5File := ⟨fun _ => ⟨[[500], [700]], 0⟩⟩

/-- Invariant of the incumbent scan: the scan result (position, distance)
is bounded by the incumbent and by every candidate, and describes either
the incumbent or an actual candidate.  Only the distance-minimisation
behaviour is stated: tie resolution is a modelling artifact of the scan
(see `nearestAux`), not a property of the program. -/
theorem nearestAux_spec (q : ℚ × ℚ) (cs : List (ℚ × ℚ)) :
    ∀ (k bi : ℕ) (bd : ℚ),
      (nearestAux q cs k bi bd).2 ≤ bd ∧
      (∀ i, i < cs.length → (nearestAux q cs k bi bd).2 ≤ sqDist (cs.getD i (0, 0)) q) ∧
      (nearestAux q cs k bi bd = (bi, bd) ∨
        ∃ i, i < cs.length ∧ nearestAux q cs k bi bd = (k + i, sqDist (cs.getD i (0, 0)) q)) := by
  induction cs with
  | nil =>
    intro k bi bd
    refine ⟨le_refl _, ?_, Or.inl rfl⟩
    intro i hi
    exact absurd hi (Nat.not_lt_zero i)
  | cons c cs ih =>
    intro k bi bd
    by_cases hlt : sqDist c q < bd
    · obtain ⟨ha, hb, hc⟩ := ih (k + 1) k (sqDist c q)
      have hstep : nearestAux q (c :: cs) k bi bd = nearestAux q cs (k + 1) k (sqDist c q) := by
        simp [nearestAux, hlt]
      rw [hstep]
      refine ⟨le_of_lt (lt_of_le_of_lt ha hlt), ?_, ?_⟩
      · intro i hi
        cases i with
        | zero => simpa using ha
        | succ j => exact hb j (by simpa using hi)
      · rcases hc with heq | ⟨j, hj, hj2⟩
        · right
          exact ⟨0, Nat.succ_pos _, by simpa using heq⟩
        · right
          refine ⟨j + 1, by simpa using hj, ?_⟩
          have harith : k + 1 + j = k + (j + 1) := by omega
          rw [hj2, harith]
          simp
    · have hge : bd ≤ sqDist c q := not_lt.mp hlt
      obtain ⟨ha, hb, hc⟩ := ih (k + 1) bi bd
      have hstep : nearestAux q (c :: cs) k bi bd = nearestAux q cs (k + 1) bi bd := by
        simp [nearestAux, hlt]
      rw [hstep]
      refine ⟨ha, ?_, ?_⟩
      · intro i hi
        cases i with
        | zero => simpa using le_trans ha hge
        | succ j => exact hb j (by simpa using hi)
      · rcases hc with heq | ⟨j, hj, hj2⟩
        · exact Or.inl heq
        · right
          refine ⟨j + 1, by simpa using hj, ?_⟩
          have harith : k + 1 + j = k + (j + 1) := by omega
          rw [hj2, harith]
          simp

/-- Sanity check of the model against the documented scipy contract: on a
non-empty coordinate array the scan returns an in-range position whose site
minimises the squared Euclidean distance to the query point.  This is the
whole documented behaviour of `cKDTree.query`: nothing is asserted about
which of several equidistant nearest sites is returned. -/
theorem nearest_site_min_sqDist (coord_array : List (ℚ × ℚ)) (lat_coord lon_coord : ℚ)
    (h : coord_array ≠ []) :
    nearest_site coord_array lat_coord lon_coord < coord_array.length ∧
    ∀ j, j < coord_array.length →
      sqDist (coord_array.getD (nearest_site coord_array lat_coord lon_coord) (0, 0))
          (lat_coord, lon_coord)
        ≤ sqDist (coord_array.getD j (0, 0)) (lat_coord, lon_coord) := by
  obtain ⟨c, cs, rfl⟩ : ∃ c cs, coord_array = c :: cs := by
    cases coord_array with
    | nil => exact absurd rfl h
    | cons c cs => exact ⟨c, cs, rfl⟩
  obtain ⟨ha, hb, hc⟩ :=
    nearestAux_spec (lat_coord, lon_coord) cs 1 0 (sqDist c (lat_coord, lon_coord))
  have hdef : nearest_site (c :: cs) lat_coord lon_coord =
      (nearestAux (lat_coord, lon_coord) cs 1 0 (sqDist c (lat_coord, lon_coord))).1 := rfl
  have hval : sqDist ((c :: cs).getD
        (nearest_site (c :: cs) lat_coord lon_coord) (0, 0)) (lat_coord, lon_coord) =
      (nearestAux (lat_coord, lon_coord) cs 1 0 (sqDist c (lat_coord, lon_coord))).2 := by
    rcases hc with heq | ⟨i, hi, heq⟩
    · rw [hdef, heq]
      simp
    · rw [hdef, heq]
      have harith : 1 + i = i + 1 := by omega
      simp [harith]
  constructor
  · rcases hc with heq | ⟨i, hi, heq⟩
    · rw [hdef, heq]
      simp
    · rw [hdef, heq]
      simpa using by omega
  · intro j hj
    rw [hval]
    cases j with
    | zero => simpa using ha
    | succ i => exact hb i (by simpa using hj)

/-- C2 (amended): `time_subset` with a resolution outside {hour, day, month}
raises no error — no `UnsupportedResolutionError` exists in the code; the
`else` branch prints a message naming the allowed set and returns the input
frame unchanged and unaggregated. -/
theorem time_subset_unsupported_period_returns_input (period : String)
    (df : List DecoratedRow)
    (h1 : period ≠ "hour") (h2 : period ≠ "day") (h3 : period ≠ "month") :
    time_subset period df = .unchanged df := by
  simp [time_subset, h1, h2, h3]

/-- Witness for `time_subset_unsupported_period_returns_input` at the
spec's scenario resolution `"week"`. -/
theorem time_subset_unsupported_period_returns_input_witness :
    time_subset "week" [rowA, rowB] = .unchanged [rowA, rowB] :=
  time_subset_unsupported_period_returns_input "week" [rowA, rowB]
    (by decide) (by decide) (by decide)

/-- C2 (counterexample): at resolution `"week"` the aggregator hands back
the unaggregated input frame instead of failing — the negation of the
claimed `UnsupportedResolutionError` behaviour, at a concrete one-row
frame. -/
theorem time_subset_week_counterexample :
    time_subset "week" [rowA] = .unchanged [rowA] := by decide

/-- C5: for a nonzero scale factor, `h5_extractor` returns exactly the raw
stored column of the requested site divided elementwise by the scale
factor, one entry per time step. -/
theorem h5_extractor_decodes (raw_h5 : H5File) (variable_name : String) (POI_indx : ℕ)
    (h : (raw_h5.datasets variable_name).scale_factor ≠ 0) :
    (h5_extractor raw_h5 variable_name POI_indx).length
        = (raw_h5.datasets variable_name).data.length ∧
    ∀ t, t < (raw_h5.datasets variable_name).data.length →
      (h5_extractor raw_h5 variable_name POI_indx).getD t 0 =
        ((raw_h5.datasets variable_name).data.getD t []).getD POI_indx 0
          / (raw_h5.datasets variable_name).scale_factor := by
  constructor
  · simp [h5_extractor]
  · intro t ht
    simp [h5_extractor, List.getD_eq_getElem?_getD, List.getElem?_map,
      List.getElem?_eq_getElem ht]

/-- Witness for `h5_extractor_decodes` at the spec's decoding scenario: the
raw value 500 under scale factor 100 decodes to 5. -/
theorem h5_extractor_decodes_witness :
    ((h5_extractor sampleFile "windspeed_100m" 0).length
        = (sampleFile.datasets "windspeed_100m").data.length ∧
      ∀ t, t < (sampleFile.datasets "windspeed_100m").data.length →
        (h5_extractor sampleFile "windspeed_100m" 0).getD t 0 =
          ((sampleFile.datasets "windspeed_100m").data.getD t []).getD 0 0
            / (sampleFile.datasets "windspeed_100m").scale_factor) ∧
    h5_extractor sampleFile "windspeed_100m" 0 = [5] :=
  ⟨h5_extractor_decodes sampleFile "windspeed_100m" 0 (by decide), by decide⟩

/-- C6 (amended): `h5_extractor` performs no scale-factor validation: with
a zero scale factor it still returns a value series with one entry per time
step (numpy divides elementwise regardless, producing non-finite values and
a runtime warning rather than an exception; no `InvalidScaleFactorError`
exists in the code). -/
theorem h5_extractor_zero_scale_returns_series (raw_h5 : H5File)
    (variable_name : String) (POI_indx : ℕ)
    (h : (raw_h5.datasets variable_name).scale_factor = 0) :
    (h5_extractor raw_h5 variable_name POI_indx).length
      = (raw_h5.datasets variable_name).data.length := by
  simp [h5_extractor]

/-- Witness for `h5_extractor_zero_scale_returns_series` on the zero-scale
fixture. -/
theorem h5_extractor_zero_scale_returns_series_witness :
    (zeroScaleFile.datasets "windspeed_100m").scale_factor = 0 ∧
    (h5_extractor zeroScaleFile "windspeed_100m" 0).length
      = (zeroScaleFile.datasets "windspeed_100m").data.length :=
  ⟨by decide,
    h5_extractor_zero_scale_returns_series zeroScaleFile "windspeed_100m" 0 (by decide)⟩

/-- C6 (counterexample): called on a store whose scale factor is 0,
`h5_extractor` completes and returns a full-length value series — here both
time steps of the fixture — the negation of the claimed failure with
`InvalidScaleFactorError`. -/
theorem h5_extractor_zero_scale_counterexample :
    (h5_extractor zeroScaleFile "windspeed_100m" 0).length = 2 := by decide

/-- C3 (code bug, evaluated at the failing input): `windspeed_point_df_maker`
ignores its `windspeed` parameter — the body's line
`df['windspeed'] = windspeed_100` reads the notebook global — so with the
series [10, 20] passed as the parameter while the global holds [2, 4],
every row gets `avg_windspeed = 3` (the global's mean) and windspeed column
[2, 4], although the mean of the passed series is 15. -/
theorem windspeed_point_df_maker_ignores_parameter :
    ((windspeed_point_df_maker [⟨2012, 1, 1, 0⟩, ⟨2012, 1, 1, 1⟩] [(34, -119)]
        [10, 20] 0 [2, 4]).map DecoratedRow.avg_windspeed = [3, 3] ∧
      (windspeed_point_df_maker [⟨2012, 1, 1, 0⟩, ⟨2012, 1, 1, 1⟩] [(34, -119)]
        [10, 20] 0 [2, 4]).map DecoratedRow.windspeed = [2, 4]) ∧
    mean [10, 20] = 15 ∧ (3 : ℚ) ≠ 15 := by decide

/-- C4 (code bug, evaluated at the failing input): on a one-point query
frame, `multiple_site_index` of `src/geospatial_task.ipynb` raises
`KeyError` on its first loop iteration — the body evaluates
`results[ind](POI_indx)` against the empty results frame — instead of
returning the per-point nearest-site indices. -/
theorem multiple_site_index_raises_on_first_row :
    (multiple_site_index ⟨["latitude", "longitude"], [(34, -119)]⟩
        [(0, 0), (34, -119)]).1 = Except.error "KeyError: 0" := by rfl

/-- C9 (counterexample): `multiple_site_index` rewrites the column labels
of the caller's points frame in place — after the call the input frame
reads `['lat', 'lon']`, not the `['latitude', 'longitude']` it was built
with — the negation of the claim that `resolve_all` leaves the input's
column labels unchanged. -/
theorem multiple_site_index_mutates_input_columns :
    (multiple_site_index ⟨["latitude", "longitude"], [(34, -119)]⟩ [(0, 0)]).2
      = ⟨["lat", "lon"], [(34, -119)]⟩ ∧
    (["lat", "lon"] : List String) ≠ ["latitude", "longitude"] := by decide

/-- Deduplication commutes with mapping by an injective function. -/
theorem dedup_map_of_injective {α β : Type} [DecidableEq α] [DecidableEq β] {f : α → β}
    (hf : Function.Injective f) (l : List α) : (l.map f).dedup = l.dedup.map f := by
  induction l with
  | nil => simp
  | cons a l ih =>
    by_cases ha : a ∈ l
    · rw [List.map_cons, List.dedup_cons_of_mem (List.mem_map_of_mem f ha),
        List.dedup_cons_of_mem ha, ih]
    · have hfa : f a ∉ l.map f := by
        intro hmem
        obtain ⟨b, hb, hfb⟩ := List.mem_map.mp hmem
        exact ha (hf hfb ▸ hb)
      rw [List.map_cons, List.dedup_cons_of_not_mem hfa, List.dedup_cons_of_not_mem ha,
        List.map_cons, ih]

/-- Sorting the distinct keys of a mapped column: an injective,
order-compatible key embedding moves through deduplicate-and-sort. -/
theorem insertionSort_dedup_map {α β : Type} [DecidableEq α] [DecidableEq β]
    (ra : α → α → Prop) [DecidableRel ra] [IsTotal α ra] [IsTrans α ra]
    (rb : β → β → Prop) [DecidableRel rb] [IsTotal β rb] [IsTrans β rb] [IsAntisymm β rb]
    {g : α → β} (hg : Function.Injective g)
    (hrel : ∀ x y, rb (g x) (g y) ↔ ra x y) (l : List α) :
    ((l.map g).dedup).insertionSort rb = ((l.dedup).insertionSort ra).map g := by
  have hperm : List.Perm (((l.map g).dedup).insertionSort rb)
      (((l.dedup).insertionSort ra).map g) := by
    have p2 : List.Perm ((l.map g).dedup) ((l.dedup).map g) := by
      rw [dedup_map_of_injective hg l]
    exact (List.perm_insertionSort rb _).trans
      (p2.trans (((List.perm_insertionSort ra (l.dedup)).map g).symm))
  have hs2 : List.Sorted rb (((l.dedup).insertionSort ra).map g) := by
    have hsa := List.sorted_insertionSort ra (l.dedup)
    exact List.pairwise_map.mpr (hsa.imp (fun hxy => (hrel _ _).mpr hxy))
  exact List.eq_of_perm_of_sorted hperm (List.sorted_insertionSort rb _) hs2

/-- Sorted deduplication is determined by membership: if the elements of
`l` are exactly those of a sorted duplicate-free `target`, then sorting
`l.dedup` yields `target` itself. -/
theorem insertionSort_dedup_eq_of_mem_iff {l target : List ℤ}
    (htn : target.Nodup) (hts : List.Sorted key1LE target)
    (hmem : ∀ m, m ∈ l ↔ m ∈ target) :
    (l.dedup).insertionSort key1LE = target := by
  have hperm : List.Perm ((l.dedup).insertionSort key1LE) target := by
    refine (List.perm_insertionSort key1LE (l.dedup)).trans ?_
    rw [List.perm_ext_iff_of_nodup (List.nodup_dedup l) htn]
    intro a
    rw [List.mem_dedup]
    exact hmem a
  exact List.eq_of_perm_of_sorted hperm (List.sorted_insertionSort key1LE _) hts

/-- Sums of pointwise sums of naturals split. -/
theorem sum_map_add_nat {κ : Type} (ks : List κ) (f g : κ → ℕ) :
    (ks.map (fun k => f k + g k)).sum = (ks.map f).sum + (ks.map g).sum := by
  induction ks with
  | nil => simp
  | cons k ks ih =>
    simp only [List.map_cons, List.sum_cons, ih]
    omega

/-- Over a duplicate-free key list containing `a`, the indicator of `a`
sums to one. -/
theorem sum_map_indicator_of_nodup {κ : Type} [DecidableEq κ] (ks : List κ)
    (hk : ks.Nodup) (a : κ) (ha : a ∈ ks) :
    (ks.map (fun k => if a = k then 1 else 0)).sum = 1 := by
  induction ks with
  | nil => exact absurd ha (List.not_mem_nil a)
  | cons k ks ih =>
    obtain ⟨hknotin, hknodup⟩ := List.nodup_cons.mp hk
    rcases List.mem_cons.mp ha with hak | hak
    · subst hak
      have hzs : (ks.map (fun k2 => if a = k2 then (1 : ℕ) else 0)).sum = 0 :=
        List.sum_eq_zero (by
          intro x hx
          obtain ⟨k2, hk2, rfl⟩ := List.mem_map.mp hx
          have hne : a ≠ k2 := fun he => hknotin (he ▸ hk2)
          simp [hne])
      simp [hzs]
    · have hne : a ≠ k := fun he => hknotin (he ▸ hak)
      simp [hne, ih hknodup hak]

/-- Grouping a list by keys drawn from a duplicate-free key list covering
every element partitions it: the group sizes sum to the full length. -/
theorem sum_map_filter_length_eq {α κ : Type} [DecidableEq κ] (key : α → κ) (ks : List κ)
    (hk : ks.Nodup) (l : List α) (hmem : ∀ x ∈ l, key x ∈ ks) :
    (ks.map (fun k => (l.filter (fun x => decide (key x = k))).length)).sum = l.length := by
  induction l with
  | nil => simp
  | cons a l ih =>
    have hal := hmem a (List.mem_cons_self a l)
    have hl : ∀ x ∈ l, key x ∈ ks := fun x hx => hmem x (List.mem_cons_of_mem a hx)
    have hsplit : ∀ k : κ, ((a :: l).filter (fun x => decide (key x = k))).length
        = (l.filter (fun x => decide (key x = k))).length + (if key a = k then 1 else 0) := by
      intro k
      by_cases hke : key a = k
      · simp [List.filter_cons, hke]
      · simp [List.filter_cons, hke]
    rw [List.map_congr_left (fun k _ => hsplit k), sum_map_add_nat,
      sum_map_indicator_of_nodup ks hk (key a) hal, ih hl]
    simp

/-- Appending the constant average is injective on temporal keys. -/
theorem appendAvg_injective (μ : ℚ) : Function.Injective (appendAvg μ) := by
  intro x y hxy
  simp only [appendAvg, Prod.mk.injEq, and_true] at hxy
  obtain ⟨h1, h2, h3⟩ := hxy
  exact Prod.ext h1 (Prod.ext h2 h3)

/-- Appending the constant average preserves the key order. -/
theorem appendAvg_rel (μ : ℚ) :
    ∀ x y, key4LE (appendAvg μ x) (appendAvg μ y) ↔ key3LE x y := by
  intro x y
  simp [key4LE, key3LE, appendAvg, lexLe, le_refl, and_true, ← le_iff_lt_or_eq]

/-- Pairing with the constant average is injective on month keys. -/
theorem appendAvg1_injective (μ : ℚ) : Function.Injective (appendAvg1 μ) := by
  intro x y hxy
  simpa [appendAvg1, Prod.mk.injEq] using hxy

/-- Pairing with the constant average preserves the key order. -/
theorem appendAvg1_rel (μ : ℚ) :
    ∀ x y, key2LE (appendAvg1 μ x) (appendAvg1 μ y) ↔ key1LE x y := by
  intro x y
  simp [key2LE, key1LE, appendAvg1, lexLe, le_refl, and_true, ← le_iff_lt_or_eq]

/-- Hour branch of `time_subset` under a constant `avg_windspeed` column:
it equals the spec-worded aggregation grouped by (year, month, hour) alone
with the constant carried into every row. -/
theorem time_subset_hour_eq_spec (μ : ℚ) (df : List DecoratedRow)
    (havg : ∀ r ∈ df, r.avg_windspeed = μ) :
    time_subset "hour" df = .hourly (hour_subset_spec μ df) := by
  have hshape : time_subset "hour" df
      = .hourly ((groupKeys key4LE hourKey df).map (fun k => mkHourRow df k)) := by
    simp [time_subset]
  have hmap : df.map hourKey = (df.map hourKeySpec).map (appendAvg μ) := by
    rw [List.map_map]
    refine List.map_congr_left (fun r hr => ?_)
    simp [hourKey, hourKeySpec, appendAvg, Function.comp, havg r hr]
  have hkeys : groupKeys key4LE hourKey df
      = ((df.map hourKeySpec).dedup.insertionSort key3LE).map (appendAvg μ) := by
    rw [groupKeys, hmap,
      insertionSort_dedup_map key3LE key4LE (appendAvg_injective μ) (appendAvg_rel μ)]
  rw [hshape, hkeys, hour_subset_spec, List.map_map]
  congr 1
  refine List.map_congr_left (fun k hk => ?_)
  have hfilter : groupOf hourKey df (appendAvg μ k)
      = df.filter (fun r => decide (hourKeySpec r = k)) := by
    unfold groupOf
    refine List.filter_congr (fun r hr => ?_)
    have h1 : hourKey r = appendAvg μ (hourKeySpec r) := by
      simp [hourKey, hourKeySpec, appendAvg, havg r hr]
    rw [h1]
    exact decide_eq_decide.mpr
      ⟨fun he => appendAvg_injective μ he, fun he => congrArg (appendAvg μ) he⟩
  simp only [Function.comp, mkHourRow, hfilter]
  simp [appendAvg]

/-- Day branch of `time_subset` under a constant `avg_windspeed` column:
it equals the spec-worded aggregation grouped by (year, month, day) alone
with the constant carried into every row. -/
theorem time_subset_day_eq_spec (μ : ℚ) (df : List DecoratedRow)
    (havg : ∀ r ∈ df, r.avg_windspeed = μ) :
    time_subset "day" df = .daily (day_subset_spec μ df) := by
  have hshape : time_subset "day" df
      = .daily ((groupKeys key4LE dayKey df).map (fun k => mkDayRow df k)) := by
    simp [time_subset]
  have hmap : df.map dayKey = (df.map dayKeySpec).map (appendAvg μ) := by
    rw [List.map_map]
    refine List.map_congr_left (fun r hr => ?_)
    simp [dayKey, dayKeySpec, appendAvg, Function.comp, havg r hr]
  have hkeys : groupKeys key4LE dayKey df
      = ((df.map dayKeySpec).dedup.insertionSort key3LE).map (appendAvg μ) := by
    rw [groupKeys, hmap,
      insertionSort_dedup_map key3LE key4LE (appendAvg_injective μ) (appendAvg_rel μ)]
  rw [hshape, hkeys, day_subset_spec, List.map_map]
  congr 1
  refine List.map_congr_left (fun k hk => ?_)
  have hfilter : groupOf dayKey df (appendAvg μ k)
      = df.filter (fun r => decide (dayKeySpec r = k)) := by
    unfold groupOf
    refine List.filter_congr (fun r hr => ?_)
    have h1 : dayKey r = appendAvg μ (dayKeySpec r) := by
      simp [dayKey, dayKeySpec, appendAvg, havg r hr]
    rw [h1]
    exact decide_eq_decide.mpr
      ⟨fun he => appendAvg_injective μ he, fun he => congrArg (appendAvg μ) he⟩
  simp only [Function.comp, mkDayRow, hfilter]
  simp [appendAvg]

/-- Month branch of `time_subset` under a constant `avg_windspeed` column:
it equals the spec-worded aggregation grouped by the month alone with the
constant carried into every row. -/
theorem time_subset_month_eq_spec (μ : ℚ) (df : List DecoratedRow)
    (havg : ∀ r ∈ df, r.avg_windspeed = μ) :
    time_subset "month" df = .monthly (month_subset_spec μ df) := by
  have hshape : time_subset "month" df
      = .monthly ((groupKeys key2LE monthKey df).map (fun k => mkMonthRow df k)) := by
    simp [time_subset]
  have hmap : df.map monthKey = (df.map monthKeySpec).map (appendAvg1 μ) := by
    rw [List.map_map]
    refine List.map_congr_left (fun r hr => ?_)
    simp [monthKey, monthKeySpec, appendAvg1, Function.comp, havg r hr]
  have hkeys : groupKeys key2LE monthKey df
      = ((df.map monthKeySpec).dedup.insertionSort key1LE).map (appendAvg1 μ) := by
    rw [groupKeys, hmap,
      insertionSort_dedup_map key1LE key2LE (appendAvg1_injective μ) (appendAvg1_rel μ)]
  rw [hshape, hkeys, month_subset_spec, List.map_map]
  congr 1
  refine List.map_congr_left (fun m hm => ?_)
  have hfilter : groupOf monthKey df (appendAvg1 μ m)
      = df.filter (fun r => decide (r.month = m)) := by
    unfold groupOf
    refine List.filter_congr (fun r hr => ?_)
    have h1 : monthKey r = appendAvg1 μ r.month := by
      simp [monthKey, monthKeySpec, appendAvg1, havg r hr]
    rw [h1]
    exact decide_eq_decide.mpr
      ⟨fun he => appendAvg1_injective μ he, fun he => congrArg (appendAvg1 μ) he⟩
  simp only [Function.comp, mkMonthRow, hfilter]
  simp [appendAvg1]

/-- C9 (amended): `aggregate` leaves its input frame unchanged (its body
only rebinds a local name and writes into the freshly grouped frame), and
the driver leaves the input's point values unchanged but reassigns the
input frame's column labels to `['lat', 'lon']` in place. -/
theorem pipeline_input_effects (POI_df : PointsFrame) (coord_array : List (ℚ × ℚ))
    (period : String) (df : List DecoratedRow) :
    (multiple_site_index POI_df coord_array).2.rows = POI_df.rows ∧
    (multiple_site_index POI_df coord_array).2.columns = ["lat", "lon"] ∧
    (time_subset_call period df).2 = df :=
  ⟨rfl, rfl, rfl⟩

/-- C10: when the `avg_windspeed` column is constant across all rows — the
invariant decoration establishes — grouping by the temporal keys together
with `avg_windspeed`, as `time_subset` does, yields exactly the aggregation
obtained by grouping by the temporal keys alone: the same groups, the same
group means, the same group standard deviations, with the constant carried
unchanged into every output row, at every resolution. -/
theorem time_subset_constant_avg_refines_spec (μ : ℚ) (df : List DecoratedRow)
    (havg : ∀ r ∈ df, r.avg_windspeed = μ) :
    time_subset "hour" df = .hourly (hour_subset_spec μ df) ∧
    time_subset "day" df = .daily (day_subset_spec μ df) ∧
    time_subset "month" df = .monthly (month_subset_spec μ df) :=
  ⟨time_subset_hour_eq_spec μ df havg, time_subset_day_eq_spec μ df havg,
    time_subset_month_eq_spec μ df havg⟩

/-- Witness for `time_subset_constant_avg_refines_spec` on a concrete
two-row frame with constant average 6. -/
theorem time_subset_constant_avg_refines_spec_witness :
    (∀ r ∈ [rowA, rowB], r.avg_windspeed = 6) ∧
    time_subset "month" [rowA, rowB] = .monthly (month_subset_spec 6 [rowA, rowB]) :=
  ⟨by decide, (time_subset_constant_avg_refines_spec 6 [rowA, rowB] (by decide)).2.2⟩

/-- C7: on a decorated frame whose rows carry a constant `avg_windspeed`
and whose months cover exactly the calendar months 1–12 — as a gap-free
full-year hourly series does — the month aggregation is exactly one row per
month in ascending order, each row carrying the group's mean, the group's
standard deviation and the whole-series constant, and the twelve groups
partition the input: their sizes sum to the full row count. -/
theorem time_subset_month_full_year_partition (μ : ℚ) (df : List DecoratedRow)
    (havg : ∀ r ∈ df, r.avg_windspeed = μ)
    (hrange : ∀ r ∈ df, r.month ∈ monthsList)
    (hcover : ∀ m ∈ monthsList, ∃ r ∈ df, r.month = m) :
    time_subset "month" df = .monthly (monthsList.map (fun m =>
      { month := m, avg_windspeed := μ,
        month_avg_windspeed :=
          mean ((df.filter (fun r => decide (r.month = m))).map DecoratedRow.windspeed),
        standard_dev :=
          sampleVariance ((df.filter (fun r => decide (r.month = m))).map
            DecoratedRow.windspeed) })) ∧
    (monthsList.map (fun m => (df.filter (fun r => decide (r.month = m))).length)).sum
      = df.length := by
  have hkeys : ((df.map monthKeySpec).dedup).insertionSort key1LE = monthsList :=
    insertionSort_dedup_eq_of_mem_iff (by decide) (by decide) (fun m => by
      constructor
      · intro hm
        obtain ⟨r, hr, hrm⟩ := List.mem_map.mp hm
        exact hrm ▸ hrange r hr
      · intro hm
        obtain ⟨r, hr, hrm⟩ := hcover m hm
        exact List.mem_map.mpr ⟨r, hr, hrm⟩)
  constructor
  · rw [time_subset_month_eq_spec μ df havg]
    congr 1
    rw [month_subset_spec, hkeys]
  · exact sum_map_filter_length_eq (fun r => r.month) monthsList (by decide) df hrange

/-- Witness for `time_subset_month_full_year_partition` on the twelve-row
fixture with one sample per month. -/
theorem time_subset_month_full_year_partition_witness :
    (∀ m ∈ monthsList, ∃ r ∈ fullYearSample, r.month = m) ∧
    (monthsList.map (fun m =>
      (fullYearSample.filter (fun r => decide (r.month = m))).length)).sum
      = fullYearSample.length :=
  ⟨by decide,
    (time_subset_month_full_year_partition 1 fullYearSample
      (by decide) (by decide) (by decide)).2⟩

/-- C8: in each of the three aggregations, a group holding exactly one
sample gets a `none` (pandas `NaN`) standard deviation in its output row:
the aggregation returns the row rather than raising, and does not report a
standard deviation of 0. -/
theorem time_subset_single_sample_group_std (df : List DecoratedRow) :
    (∀ rows, time_subset "hour" df = .hourly rows → ∀ row ∈ rows,
      (df.filter (fun r => decide (hourKey r
          = (row.year, row.month, row.hour, row.avg_windspeed)))).length = 1 →
      row.standard_dev = none ∧ row.standard_dev ≠ some 0) ∧
    (∀ rows, time_subset "day" df = .daily rows → ∀ row ∈ rows,
      (df.filter (fun r => decide (dayKey r
          = (row.year, row.month, row.day, row.avg_windspeed)))).length = 1 →
      row.standard_dev = none ∧ row.standard_dev ≠ some 0) ∧
    (∀ rows, time_subset "month" df = .monthly rows → ∀ row ∈ rows,
      (df.filter (fun r => decide (monthKey r
          = (row.month, row.avg_windspeed)))).length = 1 →
      row.standard_dev = none ∧ row.standard_dev ≠ some 0) := by
  have hvar : ∀ g : List DecoratedRow, g.length = 1 →
      sampleVariance (g.map DecoratedRow.windspeed) = none := by
    intro g hg
    simp [sampleVariance, List.length_map, hg]
  refine ⟨?_, ?_, ?_⟩
  · intro rows hrows row hrow hlen
    have hshape : time_subset "hour" df
        = .hourly ((groupKeys key4LE hourKey df).map (fun k => mkHourRow df k)) := by
      simp [time_subset]
    rw [hshape] at hrows
    injection hrows with hrows
    rw [← hrows] at hrow
    obtain ⟨k, hk, rfl⟩ := List.mem_map.mp hrow
    have hlen2 : (groupOf hourKey df k).length = 1 := hlen
    have hnone : (mkHourRow df k).standard_dev = none := hvar _ hlen2
    exact ⟨hnone, by rw [hnone]; exact fun hcon => Option.noConfusion hcon⟩
  · intro rows hrows row hrow hlen
    have hshape : time_subset "day" df
        = .daily ((groupKeys key4LE dayKey df).map (fun k => mkDayRow df k)) := by
      simp [time_subset]
    rw [hshape] at hrows
    injection hrows with hrows
    rw [← hrows] at hrow
    obtain ⟨k, hk, rfl⟩ := List.mem_map.mp hrow
    have hlen2 : (groupOf dayKey df k).length = 1 := hlen
    have hnone : (mkDayRow df k).standard_dev = none := hvar _ hlen2
    exact ⟨hnone, by rw [hnone]; exact fun hcon => Option.noConfusion hcon⟩
  · intro rows hrows row hrow hlen
    have hshape : time_subset "month" df
        = .monthly ((groupKeys key2LE monthKey df).map (fun k => mkMonthRow df k)) := by
      simp [time_subset]
    rw [hshape] at hrows
    injection hrows with hrows
    rw [← hrows] at hrow
    obtain ⟨k, hk, rfl⟩ := List.mem_map.mp hrow
    have hlen2 : (groupOf monthKey df k).length = 1 := hlen
    have hnone : (mkMonthRow df k).standard_dev = none := hvar _ hlen2
    exact ⟨hnone, by rw [hnone]; exact fun hcon => Option.noConfusion hcon⟩

/-- Witness for `time_subset_single_sample_group_std` on a one-row frame:
its single month group has one sample and a `none` standard deviation. -/
theorem time_subset_single_sample_group_std_witness :
    time_subset "month" [rowA] = .monthly [mkMonthRow [rowA] (1, 6)] ∧
    (mkMonthRow [rowA] (1, 6)).standard_dev = none ∧
    (mkMonthRow [rowA] (1, 6)).standard_dev ≠ some 0 :=
  ⟨by decide,
    (time_subset_single_sample_group_std [rowA]).2.2 [mkMonthRow [rowA] (1, 6)]
      (by decide) (mkMonthRow [rowA] (1, 6)) (by decide) (by decide)⟩

end NREL2022
